import Mathlib

/-!
Shallow embedding of the `ductworks` library (files `ductworks/base_duct.py`
and `ductworks/message_duct.py`) and proofs about it.

Bytes are modelled as `Nat` (values below 256 where it matters).  The reliable
ordered byte-stream transport is modelled explicitly: the bytes available to a
receiver form a `List Nat` (reading past the end models the peer having closed
the connection, i.e. a zero-byte read), and the way the transport fragments
partial reads and writes is captured by an explicit *schedule*: a list giving,
for each underlying `send`/`recv_into` call, how many bytes that call
transfers.  A schedule is only meaningful if each entry respects what a real
blocking stream socket can do (at least one byte when data is available, no
more than was requested and than is available); functions return `Option`
results and yield `none` on schedules no real transport could produce.
-/

namespace Ductworks

/-- Embeds `MAGIC_BYTE = b'\x54'` from `message_duct.py`. -/
def MAGIC_BYTE : Nat := 0x54

/-- Big-endian 4-byte encoding of a payload length, as produced by
`struct.pack('!L', n)` for `n < 2^32`. -/
def be32 (n : Nat) : List Nat :=
  [n / 2 ^ 24 % 256, n / 2 ^ 16 % 256, n / 2 ^ 8 % 256, n % 256]

/-- Big-endian interpretation of a 4-byte buffer, as `struct.unpack('!L', b)`. -/
def be32ToNat (b : List Nat) : Nat :=
  match b with
  | [b0, b1, b2, b3] => ((b0 * 256 + b1) * 256 + b2) * 256 + b3
  | _ => 0

theorem be32_length (n : Nat) : (be32 n).length = 4 := rfl

theorem be32ToNat_be32 {n : Nat} (h : n < 2 ^ 32) : be32ToNat (be32 n) = n := by
  simp only [be32, be32ToNat]
  omega

/-- The wire frame for a serialized payload: magic sentinel, 4-byte big-endian
length, then the payload bytes (`struct.pack('!cL', MAGIC_BYTE, payload_len)`
followed by the serialized payload in `MessageDuctParent.send`). -/
def frame (payload : List Nat) : List Nat :=
  MAGIC_BYTE :: be32 payload.length ++ payload

theorem frame_length (payload : List Nat) :
    (frame payload).length = 5 + payload.length := by
  simp [frame, be32]
  omega

/-- One underlying `socket_duct.send` call on a blocking stream socket accepts
`k` bytes of the `msg` bytes still to send, with `1 ≤ k ≤ msg.length`.
`sendLoop msg ws` runs the `while full_message_view:` loop of
`MessageDuctParent.send` under write schedule `ws`, returning the list of
chunks actually handed to the transport (`none` when the schedule is not one a
real transport could produce). -/
def sendLoop : List Nat → List Nat → Option (List (List Nat))
  | [], _ => some []
  | _ :: _, [] => none
  | b :: msg, k :: ws =>
    if 1 ≤ k ∧ k ≤ (b :: msg).length then
      match sendLoop ((b :: msg).drop k) ws with
      | some chunks => some ((b :: msg).take k :: chunks)
      | none => none
    else none

/-- Embeds `MessageDuctParent.send` (and identically `MessageDuctChild.send`), given
the already-serialized payload: build the frame with `struct.pack('!cL', …)`
(which requires the length to fit in an unsigned 32-bit value) and write it
out chunk by chunk under write schedule `ws`. -/
def duct_send (payload : List Nat) (ws : List Nat) : Option (List (List Nat)) :=
  if payload.length < 2 ^ 32 then sendLoop (frame payload) ws else none

theorem sendLoop_join {msg ws chunks} (h : sendLoop msg ws = some chunks) :
    chunks.flatten = msg := by
  induction ws generalizing msg chunks with
  | nil =>
    cases msg with
    | nil => simp [sendLoop] at h; simp [h]
    | cons b msg => simp [sendLoop] at h
  | cons k ws ih =>
    cases msg with
    | nil => simp [sendLoop] at h; simp [h]
    | cons b msg =>
      rw [sendLoop] at h
      by_cases hk : 1 ≤ k ∧ k ≤ (b :: msg).length
      · rw [if_pos hk] at h
        cases hrec : sendLoop ((b :: msg).drop k) ws with
        | none => rw [hrec] at h; exact absurd h (by simp)
        | some rest =>
          rw [hrec] at h
          injection h with h
          subst h
          simp [List.flatten, ih hrec]
      · rw [if_neg hk] at h; exact absurd h (by simp)

theorem duct_send_flatten {payload ws : List Nat} {chunks : List (List Nat)}
    (h : duct_send payload ws = some chunks) :
    chunks.flatten = frame payload := by
  rw [duct_send] at h
  by_cases hlen : payload.length < 2 ^ 32
  · rw [if_pos hlen] at h
    exact sendLoop_join h
  · rw [if_neg hlen] at h; exact absurd h (by simp)

/-- C2: for every payload, a completed `send` writes to the transport exactly
one frame — magic byte `0x54`, 4-byte unsigned big-endian length of the
serialized payload, then exactly the payload bytes — and when underlying
writes accept fewer bytes than requested, the remaining bytes are reissued
until none remain, so the concatenation of all chunks written equals that
frame exactly. -/
theorem send_writes_exactly_one_frame (payload ws : List Nat)
    (chunks : List (List Nat)) (h : duct_send payload ws = some chunks) :
    chunks.flatten = MAGIC_BYTE :: (be32 payload.length ++ payload) := by
  simpa [frame] using duct_send_flatten h

/-- Witness for C2 at a concrete payload and write schedule: payload
`[10, 20]` sent through writes that accept 3 then 4 bytes. -/
theorem send_writes_exactly_one_frame_witness :
    duct_send [10, 20] [3, 4] = some [[0x54, 0, 0], [0, 2, 10, 20]] ∧
      [[0x54, 0, 0], [0, 2, 10, 20]].flatten =
        MAGIC_BYTE :: (be32 ([10, 20] : List Nat).length ++ [10, 20]) :=
  ⟨by decide, send_writes_exactly_one_frame [10, 20] [3, 4] _ (by decide)⟩

/-- Outcome of one of the `while …_view:` accumulation loops in
`MessageDuctParent.recv`: either the buffer was filled (`got` carries the
bytes read, the remaining stream, the remaining schedule, and the byte count
returned by each underlying `recv_into` call), or a zero-byte read was
observed mid-loop (`closed`, with its per-call byte counts, the last of which
is the zero). -/
inductive RecvStep where
  | got (bytes rest sched counts : List Nat)
  | closed (counts : List Nat)
deriving DecidableEq, Repr

/-- The `recv_into` accumulation loop of `MessageDuctParent.recv`: fill a
buffer of `need` bytes from stream `s`, one underlying `recv_into` call per
schedule entry; each call on a nonempty stream returns `k` bytes with
`1 ≤ k ≤ min need s.length`, and a call on an exhausted stream returns zero
bytes (the peer has closed).  `none` flags a schedule no real transport could
produce. -/
def recvIntoLoop : Nat → List Nat → List Nat → Option RecvStep
  | 0, s, sc => some (.got [] s sc [])
  | _ + 1, [], _ => some (.closed [0])
  | _ + 1, _ :: _, [] => none
  | need + 1, b :: s, k :: sc =>
    if 1 ≤ k ∧ k ≤ min (need + 1) (b :: s).length then
      match recvIntoLoop (need + 1 - k) ((b :: s).drop k) sc with
      | some (.got bytes rest sc2 counts) =>
        some (.got ((b :: s).take k ++ bytes) rest sc2 (k :: counts))
      | some (.closed counts) => some (.closed (k :: counts))
      | none => none
    else none

/-- Result of `MessageDuctParent.recv` (identically `MessageDuctChild.recv`):
either a deserialized payload together with the unread remainder of the
stream, or one of the two failures the method raises (`RemoteDuctClosed`,
`MessageProtocolException` — the latter carrying the expected and actual
sentinel byte, as in its message). -/
inductive RecvResult (α : Type) where
  | ok (v : α) (rest : List Nat)
  | remoteClosed
  | protocolViolation (expected actual : Nat)
deriving DecidableEq, Repr

/-- Embeds `MessageDuctParent.recv`: read the 1-byte sentinel (an exhausted stream
gives the zero-byte read that raises `RemoteDuctClosed`; a wrong sentinel
raises `MessageProtocolException`), then the 4-byte big-endian length via the
accumulation loop, then exactly that many payload bytes, then deserialize.
Alongside the result it returns the byte count yielded by every underlying
transport read, in order. -/
def duct_recv {α : Type} (deserialize : List Nat → α) (s : List Nat)
    (sc : List Nat) : Option (RecvResult α × List Nat) :=
  match s with
  | [] => some (.remoteClosed, [0])
  | b :: rest =>
    if b = MAGIC_BYTE then
      match recvIntoLoop 4 rest sc with
      | none => none
      | some (.closed counts) => some (.remoteClosed, 1 :: counts)
      | some (.got lenBytes rest2 sc2 counts1) =>
        match recvIntoLoop (be32ToNat lenBytes) rest2 sc2 with
        | none => none
        | some (.closed counts2) => some (.remoteClosed, 1 :: counts1 ++ counts2)
        | some (.got payload rest3 _ counts2) =>
          some (.ok (deserialize payload) rest3, 1 :: counts1 ++ counts2)
    else some (.protocolViolation MAGIC_BYTE b, [1])

/-- When the stream holds at least `need` bytes, any completed run of the
accumulation loop reads exactly the first `need` bytes, never observes a
zero-byte read, and leaves the rest of the stream untouched. -/
theorem recvIntoLoop_of_le {need : Nat} {s sc : List Nat}
    (hlen : need ≤ s.length) {st : RecvStep}
    (h : recvIntoLoop need s sc = some st) :
    ∃ sc2 counts, st = .got (s.take need) (s.drop need) sc2 counts ∧
      0 ∉ counts := by
  induction sc generalizing need s st with
  | nil =>
    match need, s with
    | 0, s =>
      simp [recvIntoLoop] at h
      exact ⟨[], [], by simp [← h], by simp⟩
    | _ + 1, [] => simp at hlen
    | _ + 1, _ :: _ => simp [recvIntoLoop] at h
  | cons k sc ih =>
    match need, s with
    | 0, s =>
      simp [recvIntoLoop] at h
      exact ⟨k :: sc, [], by simp [← h], by simp⟩
    | _ + 1, [] => simp at hlen
    | need + 1, b :: s =>
      rw [recvIntoLoop] at h
      by_cases hk : 1 ≤ k ∧ k ≤ min (need + 1) (b :: s).length
      · rw [if_pos hk] at h
        have hrec_len : need + 1 - k ≤ ((b :: s).drop k).length := by
          simp only [List.length_drop]
          omega
        cases hrec : recvIntoLoop (need + 1 - k) ((b :: s).drop k) sc with
        | none => rw [hrec] at h; exact absurd h (by simp)
        | some st' =>
          obtain ⟨sc2, counts, hst', hcounts⟩ := ih hrec_len hrec
          rw [hrec, hst'] at h
          injection h with h
          refine ⟨sc2, k :: counts, ?_, ?_⟩
          · rw [← h]
            have htake : (b :: s).take k ++ ((b :: s).drop k).take (need + 1 - k)
                = (b :: s).take (need + 1) := by
              rw [← List.take_add]
              congr 1
              omega
            have hdrop : ((b :: s).drop k).drop (need + 1 - k)
                = (b :: s).drop (need + 1) := by
              rw [List.drop_drop]
              congr 1
              omega
            rw [htake, hdrop]
          · simp only [List.mem_cons, not_or]
            exact ⟨by omega, hcounts⟩
      · rw [if_neg hk] at h; exact absurd h (by simp)

/-- A completed accumulation loop never observed a zero-byte read. -/
theorem recvIntoLoop_got_no_zero {need : Nat} {s sc bytes rest sc2 counts}
    (h : recvIntoLoop need s sc = some (.got bytes rest sc2 counts)) :
    0 ∉ counts := by
  induction sc generalizing need s bytes rest sc2 counts with
  | nil =>
    match need, s with
    | 0, s =>
      simp [recvIntoLoop] at h
      obtain ⟨-, -, -, h4⟩ := h
      subst h4
      simp
    | _ + 1, [] => simp [recvIntoLoop] at h
    | _ + 1, _ :: _ => simp [recvIntoLoop] at h
  | cons k sc ih =>
    match need, s with
    | 0, s =>
      simp [recvIntoLoop] at h
      obtain ⟨-, -, -, h4⟩ := h
      subst h4
      simp
    | _ + 1, [] => simp [recvIntoLoop] at h
    | need + 1, b :: s =>
      rw [recvIntoLoop] at h
      by_cases hk : 1 ≤ k ∧ k ≤ min (need + 1) (b :: s).length
      · rw [if_pos hk] at h
        cases hrec : recvIntoLoop (need + 1 - k) ((b :: s).drop k) sc with
        | none => rw [hrec] at h; exact absurd h (by simp)
        | some st' =>
          rw [hrec] at h
          cases st' with
          | got bytes' rest' sc2' counts' =>
            simp only [Option.some.injEq, RecvStep.got.injEq] at h
            obtain ⟨-, -, -, h4⟩ := h
            subst h4
            simp only [List.mem_cons, not_or]
            exact ⟨by omega, ih hrec⟩
          | closed counts' => exact absurd h (by simp)
      · rw [if_neg hk] at h; exact absurd h (by simp)

/-- An accumulation loop that ended in `closed` did observe a zero-byte read. -/
theorem recvIntoLoop_closed_has_zero {need : Nat} {s sc counts}
    (h : recvIntoLoop need s sc = some (.closed counts)) :
    0 ∈ counts := by
  induction sc generalizing need s counts with
  | nil =>
    match need, s with
    | 0, s => simp [recvIntoLoop] at h
    | _ + 1, [] => simp [recvIntoLoop] at h; simp [← h]
    | _ + 1, _ :: _ => simp [recvIntoLoop] at h
  | cons k sc ih =>
    match need, s with
    | 0, s => simp [recvIntoLoop] at h
    | _ + 1, [] => simp [recvIntoLoop] at h; simp [← h]
    | need + 1, b :: s =>
      rw [recvIntoLoop] at h
      by_cases hk : 1 ≤ k ∧ k ≤ min (need + 1) (b :: s).length
      · rw [if_pos hk] at h
        cases hrec : recvIntoLoop (need + 1 - k) ((b :: s).drop k) sc with
        | none => rw [hrec] at h; exact absurd h (by simp)
        | some st' =>
          rw [hrec] at h
          cases st' with
          | got bytes' rest' sc2' counts' => exact absurd h (by simp)
          | closed counts' =>
            simp only [Option.some.injEq, RecvStep.closed.injEq] at h
            subst h
            simp only [List.mem_cons]
            exact Or.inr (ih hrec)
      · rw [if_neg hk] at h; exact absurd h (by simp)

/-- A receiver whose stream begins with a full frame for payload `p` parses
exactly that frame, whatever the read fragmentation. -/
theorem duct_recv_frame {α : Type} (des : List Nat → α) (p extra sc : List Nat)
    (hlen : p.length < 2 ^ 32) {r : RecvResult α} {cnt : List Nat}
    (h : duct_recv des (frame p ++ extra) sc = some (r, cnt)) :
    r = RecvResult.ok (des p) extra := by
  have hs : frame p ++ extra
      = MAGIC_BYTE :: (be32 p.length ++ (p ++ extra)) := by
    simp [frame]
  rw [hs] at h
  have h4le : 4 ≤ (be32 p.length ++ (p ++ extra)).length := by
    simp [be32]
  cases h4 : recvIntoLoop 4 (be32 p.length ++ (p ++ extra)) sc with
  | none => simp [duct_recv, h4] at h
  | some st =>
    obtain ⟨sc2, counts, hst, -⟩ := recvIntoLoop_of_le h4le h4
    rw [List.take_left' (be32_length p.length),
        List.drop_left' (be32_length p.length)] at hst
    subst hst
    have hple : p.length ≤ (p ++ extra).length := by simp
    cases h5 : recvIntoLoop p.length (p ++ extra) sc2 with
    | none => simp [duct_recv, h4, be32ToNat_be32 hlen, h5] at h
    | some st2 =>
      obtain ⟨sc3, counts2, hst2, -⟩ := recvIntoLoop_of_le hple h5
      rw [List.take_left, List.drop_left] at hst2
      subst hst2
      simp only [duct_recv, if_pos rfl, if_true, h4, be32ToNat_be32 hlen, h5,
        Option.some.injEq, Prod.mk.injEq] at h
      exact h.1.symm

/-- C1: for every payload `P` that the configured serialize/deserialize pair
round-trips (and whose serialized form fits the frame's unsigned 32-bit
length field), if one end of a connected framing-duct pair sends `P` and the
peer then calls `recv`, the peer gets back a value equal to `P` — for every
way the reliable ordered transport fragments the frame across partial writes
(schedule `ws`) and partial reads (schedule `sc`), including the empty
payload and payloads spanning many partial transfers. -/
theorem send_recv_roundtrip {α : Type} (serialize : α → List Nat)
    (deserialize : List Nat → α) (P : α)
    (hrt : deserialize (serialize P) = P)
    (hlen : (serialize P).length < 2 ^ 32)
    (ws : List Nat) (chunks : List (List Nat))
    (hsend : duct_send (serialize P) ws = some chunks)
    (extra sc : List Nat) (r : RecvResult α) (cnt : List Nat)
    (hrecv : duct_recv deserialize (chunks.flatten ++ extra) sc = some (r, cnt)) :
    r = RecvResult.ok P extra := by
  rw [duct_send_flatten hsend] at hrecv
  rw [duct_recv_frame deserialize (serialize P) extra sc hlen hrecv, hrt]

/-- Witness for C1: the identity serializer round-trips the one-byte payload
`[7]` through concrete write fragmentation `[2, 4]` and read fragmentation
`[3, 1, 1]`. -/
theorem send_recv_roundtrip_witness :
    (id ([7] : List Nat) = [7]) ∧
    ([7] : List Nat).length < 2 ^ 32 ∧
    duct_send [7] [2, 4] = some [[0x54, 0], [0, 0, 1, 7]] ∧
    duct_recv id ([[0x54, 0], [0, 0, 1, 7]].flatten ++ []) [3, 1, 1] =
      some (RecvResult.ok [7] [], [1, 3, 1, 1]) ∧
    RecvResult.ok ([7] : List Nat) [] = RecvResult.ok [7] [] :=
  ⟨rfl, by decide, by decide, by decide,
    send_recv_roundtrip id id [7] rfl (by decide) [2, 4] [[0x54, 0], [0, 0, 1, 7]]
      (by decide) [] [3, 1, 1] (RecvResult.ok [7] []) [1, 3, 1, 1] (by decide)⟩

/-- C3: a completed `recv` raises `RemoteDuctClosed` exactly when a zero-byte
read was observed (either on the very first sentinel read or inside the
length/payload accumulation loops), and raises `MessageProtocolException`
exactly when the first byte read is nonempty and differs from the magic
sentinel, the exception carrying the expected and actual byte values; after a
bad sentinel no further transport read is attempted (no resynchronization). -/
theorem recv_failure_characterization {α : Type} (des : List Nat → α)
    (s sc : List Nat) (r : RecvResult α) (counts : List Nat)
    (h : duct_recv des s sc = some (r, counts)) :
    (r = RecvResult.remoteClosed ↔ 0 ∈ counts) ∧
    (∀ e a, r = RecvResult.protocolViolation e a ↔
      e = MAGIC_BYTE ∧ a ≠ MAGIC_BYTE ∧ s.head? = some a) ∧
    (∀ e a, r = RecvResult.protocolViolation e a → counts = [1]) := by
  cases s with
  | nil =>
    simp only [duct_recv, Option.some.injEq, Prod.mk.injEq] at h
    obtain ⟨h1, h2⟩ := h
    subst h1; subst h2
    refine ⟨by simp, fun e a => ?_, by simp⟩
    simp
  | cons b rest =>
    by_cases hb : b = MAGIC_BYTE
    · subst hb
      cases h4 : recvIntoLoop 4 rest sc with
      | none => simp [duct_recv, h4] at h
      | some st =>
        cases st with
        | closed c1 =>
          have hz := recvIntoLoop_closed_has_zero h4
          simp only [duct_recv, if_pos rfl, if_true, h4, Option.some.injEq,
            Prod.mk.injEq] at h
          obtain ⟨h1, h2⟩ := h
          subst h1; subst h2
          refine ⟨by simp [hz], fun e a => ?_, by simp⟩
          simp only [List.head?_cons]
          constructor
          · intro hpv; exact absurd hpv (by simp)
          · rintro ⟨-, hne, ha⟩
            injection ha with ha
            exact absurd ha.symm hne
        | got lenBytes rest2 sc2 c1 =>
          have hz1 := recvIntoLoop_got_no_zero h4
          cases h5 : recvIntoLoop (be32ToNat lenBytes) rest2 sc2 with
          | none => simp [duct_recv, h4, h5] at h
          | some st2 =>
            cases st2 with
            | closed c2 =>
              have hz2 := recvIntoLoop_closed_has_zero h5
              simp only [duct_recv, if_pos rfl, if_true, h4, h5, Option.some.injEq,
                Prod.mk.injEq] at h
              obtain ⟨h1, h2⟩ := h
              subst h1; subst h2
              refine ⟨by simp [hz2], fun e a => ?_, by simp⟩
              simp only [List.head?_cons]
              constructor
              · intro hpv; exact absurd hpv (by simp)
              · rintro ⟨-, hne, ha⟩
                injection ha with ha
                exact absurd ha.symm hne
            | got payload rest3 sc3 c2 =>
              have hz2 := recvIntoLoop_got_no_zero h5
              simp only [duct_recv, if_pos rfl, if_true, h4, h5, Option.some.injEq,
                Prod.mk.injEq] at h
              obtain ⟨h1, h2⟩ := h
              subst h1; subst h2
              refine ⟨?_, fun e a => ?_, by simp⟩
              · constructor
                · intro hok; exact absurd hok (by simp)
                · intro hmem
                  simp only [List.mem_cons, List.mem_append] at hmem
                  rcases hmem with (h0 | h0) | h0
                  · exact absurd h0.symm (by simp)
                  · exact absurd h0 hz1
                  · exact absurd h0 hz2
              · simp only [List.head?_cons]
                constructor
                · intro hpv; exact absurd hpv (by simp)
                · rintro ⟨-, hne, ha⟩
                  injection ha with ha
                  exact absurd ha.symm hne
    · simp only [duct_recv, if_neg hb, Option.some.injEq, Prod.mk.injEq] at h
      obtain ⟨h1, h2⟩ := h
      subst h1; subst h2
      refine ⟨by simp, fun e a => ?_, by simp⟩
      simp only [List.head?_cons, RecvResult.protocolViolation.injEq]
      constructor
      · rintro ⟨he, ha⟩
        exact ⟨he.symm, by simp [← ha, hb], by simp [ha]⟩
      · rintro ⟨he, -, ha⟩
        injection ha with ha
        exact ⟨he.symm, ha⟩

/-- Witness for C3: receiving on a stream whose first byte `0x53` is not the
sentinel yields `MessageProtocolException` with expected `0x54`, actual
`0x53`, and exactly one 1-byte read. -/
theorem recv_failure_characterization_witness :
    duct_recv List.length [0x53] [] =
      some (RecvResult.protocolViolation 0x54 0x53, [1]) ∧
    (((RecvResult.protocolViolation 0x54 0x53 : RecvResult Nat) =
        RecvResult.remoteClosed ↔ 0 ∈ ([1] : List Nat)) ∧
     (∀ e a, (RecvResult.protocolViolation 0x54 0x53 : RecvResult Nat) =
        RecvResult.protocolViolation e a ↔
          e = MAGIC_BYTE ∧ a ≠ MAGIC_BYTE ∧ ([0x53] : List Nat).head? = some a) ∧
     (∀ e a, (RecvResult.protocolViolation 0x54 0x53 : RecvResult Nat) =
        RecvResult.protocolViolation e a → ([1] : List Nat) = [1])) :=
  ⟨by decide,
    recv_failure_characterization List.length [0x53] []
      (RecvResult.protocolViolation 0x54 0x53) [1] (by decide)⟩

/-- A transport endpoint address: either a concrete filesystem path / (host,
port) pair, or a placeholder (empty path, port 0) asking the system to assign
one.  Concrete addresses are abstracted to a `Nat` identifier. -/
inductive Address where
  | concrete (a : Nat)
  | placeholder
deriving DecidableEq, Repr

/-- Modelled from the spec: the address the listener socket actually ends up
bound to (`getsockname`), which `src/ductworks/base_duct.py` in this tree
does not expose (the `listener_address` property of the raw duct is only
referenced from `message_duct.py`).  Per the spec, "a placeholder may be
replaced with a system-assigned path/port": a concrete request binds to
itself, a placeholder binds to the system-assigned address `sys`. -/
def resolveAddress (sys : Nat) : Address → Address
  | .concrete a => .concrete a
  | .placeholder => .concrete sys

/-- Errors a raw-duct operation can raise: `invalidState` is the Python
`AssertionError` from the `assert` lifecycle guards (the spec's
`InvalidStateError`), `communicationFault` is `CommunicationFaultException`,
and `destructorFault` is the `OSError` raised when `shutdown`/`close`/
`fileno`+`select` is attempted on a socket that has already been destroyed. -/
inductive DuctError where
  | invalidState
  | communicationFault
  | destructorFault
deriving DecidableEq, Repr

/-- State of `RawDuctParent` (`base_duct.py`): the requested bind address,
the `self.listener_socket` and `self.conn_socket` references (socket handles
abstracted to `Nat` identifiers), the actual address the listener socket was
bound to, plus bookkeeping of which socket handles have been destroyed and a
fresh-handle counter. -/
structure RawDuctParent where
  bind_address : Address
  listenerSocket : Option Nat
  connSocket : Option Nat
  listenerAddr : Option Address
  destroyed : List Nat
  nextId : Nat
deriving DecidableEq, Repr

/-- Embeds `RawDuctParent.__init__`: both socket references start out `None`. -/
def RawDuctParent.init (addr : Address) : RawDuctParent :=
  ⟨addr, none, none, none, [], 0⟩

/-- A socket destructor (`psuedo_anon_uds_listener_destructor` /
`psuedo_anon_uds_client_destructor`): `shutdown` + `close` succeed on a live
socket and raise `OSError` on one that was already destroyed. -/
def destroySocket (sid : Nat) (st : RawDuctParent) :
    Except DuctError RawDuctParent :=
  if sid ∈ st.destroyed then .error .destructorFault
  else .ok { st with destroyed := sid :: st.destroyed }

/-- Embeds `RawDuctParent.bind`: assert no connection exists; if no listener socket
is held yet, construct one and bind it (`sys` is the address the system
assigns when a placeholder was requested). -/
def RawDuctParent.bind (sys : Nat) (st : RawDuctParent) :
    Except DuctError Unit × RawDuctParent :=
  if st.connSocket.isSome then (.error .invalidState, st)
  else
    match st.listenerSocket with
    | some _ => (.ok (), st)
    | none =>
      (.ok (), { st with
        listenerSocket := some st.nextId
        nextId := st.nextId + 1
        listenerAddr := some (resolveAddress sys st.bind_address) })

/-- What the `select.select` readiness wait in `RawDuctParent.listen`
observed within the timeout. -/
inductive ListenEvent where
  | faulted
  | hasConn
  | timedOut
deriving DecidableEq, Repr

/-- Embeds `RawDuctParent.listen`: assert no connection exists; auto-`bind` if
needed; wait for readiness.  On an exceptional condition, destroy the
listener (keeping the now-dangling reference, exactly as the source does) and
raise `CommunicationFaultException`; on an incoming connection, accept it,
destroy the listener and clear its reference; on timeout, report whether a
connection exists.  Using `fileno`/`select` on a listener that was already
destroyed raises `OSError`. -/
def RawDuctParent.listen (sys : Nat) (ev : ListenEvent) (st : RawDuctParent) :
    Except DuctError Bool × RawDuctParent :=
  if st.connSocket.isSome then (.error .invalidState, st)
  else
    let st1 := if st.listenerSocket.isNone then (RawDuctParent.bind sys st).2 else st
    match st1.listenerSocket with
    | none => (.error .invalidState, st1)
    | some lid =>
      if lid ∈ st1.destroyed then (.error .destructorFault, st1)
      else
        match ev with
        | .faulted =>
          match destroySocket lid st1 with
          | .error e => (.error e, st1)
          | .ok st2 => (.error .communicationFault, st2)
        | .hasConn =>
          let st2 := { st1 with
            connSocket := some st1.nextId, nextId := st1.nextId + 1 }
          match destroySocket lid st2 with
          | .error e => (.error e, st2)
          | .ok st3 => (.ok true, { st3 with listenerSocket := none })
        | .timedOut => (.ok st1.connSocket.isSome, st1)

/-- Embeds `RawDuctParent.send`: assert a connection exists, then pass through to
`self.conn_socket.send`; `sent` is the byte count the transport reports. -/
def RawDuctParent.send (sent : Nat) (st : RawDuctParent) :
    Except DuctError Nat × RawDuctParent :=
  match st.connSocket with
  | none => (.error .invalidState, st)
  | some _ => (.ok sent, st)

/-- Embeds `RawDuctParent.recv`: assert a connection exists, then pass through to
`self.conn_socket.recv`; `got` is the byte string the transport yields. -/
def RawDuctParent.recv (got : List Nat) (st : RawDuctParent) :
    Except DuctError (List Nat) × RawDuctParent :=
  match st.connSocket with
  | none => (.error .invalidState, st)
  | some _ => (.ok got, st)

/-- Embeds `RawDuctParent.recv_into`: assert a connection exists, then pass through
to `self.conn_socket.recv_into`; `got` is the byte count transferred. -/
def RawDuctParent.recv_into (got : Nat) (st : RawDuctParent) :
    Except DuctError Nat × RawDuctParent :=
  match st.connSocket with
  | none => (.error .invalidState, st)
  | some _ => (.ok got, st)

/-- Embeds `RawDuctParent.poll`: assert a connection exists; `ready` is what the
`select` readiness wait reports. -/
def RawDuctParent.poll (ready : Bool) (st : RawDuctParent) :
    Except DuctError Bool × RawDuctParent :=
  match st.connSocket with
  | none => (.error .invalidState, st)
  | some _ => (.ok ready, st)

/-- The connection-closing second half of `RawDuctParent.close`. -/
def RawDuctParent.closeConn (st : RawDuctParent) :
    Except DuctError Unit × RawDuctParent :=
  match st.connSocket with
  | none => (.ok (), st)
  | some cid =>
    match destroySocket cid st with
    | .error e => (.error e, st)
    | .ok st2 => (.ok (), { st2 with connSocket := none })

/-- Embeds `RawDuctParent.close`: destroy and clear the listener socket if one is
referenced, then destroy and clear the connection socket if one is
referenced.  A destructor failure propagates, skipping the rest (and, for the
listener, leaving the dangling reference in place, as in the source). -/
def RawDuctParent.close (st : RawDuctParent) :
    Except DuctError Unit × RawDuctParent :=
  match st.listenerSocket with
  | none => st.closeConn
  | some lid =>
    match destroySocket lid st with
    | .error e => (.error e, st)
    | .ok st2 => RawDuctParent.closeConn { st2 with listenerSocket := none }

/-- Embeds `MessageDuctParent.listener_address`, delegated to the raw duct.
Modelled from the spec (see `resolveAddress`): the actual address the parent
socket is/was listening on, recorded when the listener was bound. -/
def RawDuctParent.listener_address (st : RawDuctParent) : Option Address :=
  st.listenerAddr

/-- A concrete connected parent duct: bound at concrete address 9, then
accepted a connection (listener handle 0 destroyed, connection handle 1). -/
def conState : RawDuctParent :=
  (RawDuctParent.listen 5 ListenEvent.hasConn
    (RawDuctParent.bind 5 (RawDuctParent.init (Address.concrete 9))).2).2

/-- A concrete parent duct after `bind` and a `listen` that observed the
listener exceptionally ready, so `listen` destroyed the listener socket and
raised `CommunicationFaultException`. -/
def faultedState : RawDuctParent :=
  (RawDuctParent.listen 5 ListenEvent.faulted
    (RawDuctParent.bind 5 (RawDuctParent.init (Address.concrete 9))).2).2

/-- C4: `send`, `recv` and `recv_into` on a duct holding no connection
socket, and `bind` on a duct on which a connection already exists, fail with
the lifecycle assertion (`InvalidStateError`), which is distinct from a
transport fault, and leave the duct's state unchanged. -/
theorem unconnected_ops_invalid (st : RawDuctParent) :
    (st.connSocket = none →
      (∀ sent, RawDuctParent.send sent st = (.error .invalidState, st)) ∧
      (∀ got, RawDuctParent.recv got st = (.error .invalidState, st)) ∧
      (∀ got, RawDuctParent.recv_into got st = (.error .invalidState, st))) ∧
    (st.connSocket.isSome →
      ∀ sys, RawDuctParent.bind sys st = (.error .invalidState, st)) ∧
    DuctError.invalidState ≠ DuctError.communicationFault := by
  refine ⟨fun hc => ?_, fun hc sys => ?_, by decide⟩
  · exact ⟨fun sent => by simp [RawDuctParent.send, hc],
      fun got => by simp [RawDuctParent.recv, hc],
      fun got => by simp [RawDuctParent.recv_into, hc]⟩
  · simp [RawDuctParent.bind, hc]

/-- Witness for C4: a freshly constructed duct rejects `send`, and the
concrete connected duct `conState` rejects `bind`. -/
theorem unconnected_ops_invalid_witness :
    RawDuctParent.send 3 (RawDuctParent.init Address.placeholder) =
      (Except.error DuctError.invalidState,
        RawDuctParent.init Address.placeholder) ∧
    RawDuctParent.bind 7 conState =
      (Except.error DuctError.invalidState, conState) :=
  ⟨((unconnected_ops_invalid (RawDuctParent.init Address.placeholder)).1
      rfl).1 3,
   (unconnected_ops_invalid conState).2.1 (by decide) 7⟩

/-- C5 counterexample: on the concrete connected duct `conState`, `listen`
does not succeed idempotently — it raises the lifecycle assertion
(`assert not self.conn_socket`), so it neither "does not raise" nor reports
the duct as connected. -/
theorem listen_when_connected_raises :
    conState.connSocket = some 1 ∧
    (RawDuctParent.listen 5 ListenEvent.timedOut conState).1 =
      Except.error DuctError.invalidState := ⟨rfl, rfl⟩

/-- C5 (amended): on every duct on which a connection already exists,
`listen` fails with the lifecycle assertion (`InvalidStateError`) and leaves
the duct's state — in particular the existing connection — unchanged. -/
theorem listen_when_connected_invalid (sys : Nat) (ev : ListenEvent)
    (st : RawDuctParent) (h : st.connSocket.isSome) :
    RawDuctParent.listen sys ev st = (.error .invalidState, st) := by
  simp [RawDuctParent.listen, h]

/-- Witness for the amended C5 at the concrete connected duct `conState`. -/
theorem listen_when_connected_invalid_witness :
    conState.connSocket.isSome = true ∧
    RawDuctParent.listen 5 ListenEvent.timedOut conState =
      (Except.error DuctError.invalidState, conState) :=
  ⟨by decide,
    listen_when_connected_invalid 5 ListenEvent.timedOut conState (by decide)⟩

/-- C6: the code contradicts the claim.  After `listen` raised
`CommunicationFaultException` (listener exceptionally ready), the destroyed
listener socket's reference is left in `self.listener_socket` (the source
clears it only on the accept path), so the next `close()` runs the listener
destructor on the already-destroyed socket, and its `shutdown` raises
`OSError`: `close` is not exception-free in every reachable state. -/
theorem close_after_faulted_listen_raises :
    (RawDuctParent.listen 5 ListenEvent.faulted
      (RawDuctParent.bind 5 (RawDuctParent.init (Address.concrete 9))).2).1 =
      Except.error DuctError.communicationFault ∧
    faultedState.listenerSocket = some 0 ∧
    0 ∈ faultedState.destroyed ∧
    (RawDuctParent.close faultedState).1 =
      Except.error DuctError.destructorFault := ⟨rfl, rfl, by decide, rfl⟩

/-- C8: after `bind`, the two accessors are separate: `listener_address`
reports the address the listener actually bound to — the system-assigned one
when a placeholder was requested — while `bind_address` still reports the
address originally requested. -/
theorem bind_exposes_both_addresses (sys : Nat) (st : RawDuctParent)
    (hc : st.connSocket = none) (hl : st.listenerSocket = none) :
    (RawDuctParent.bind sys st).2.bind_address = st.bind_address ∧
    (RawDuctParent.bind sys st).2.listener_address =
      some (resolveAddress sys st.bind_address) ∧
    resolveAddress sys Address.placeholder = Address.concrete sys ∧
    (∀ a, resolveAddress sys (Address.concrete a) = Address.concrete a) := by
  refine ⟨?_, ?_, rfl, fun a => rfl⟩ <;>
    simp [RawDuctParent.bind, RawDuctParent.listener_address, hc, hl]

/-- Witness for C8: binding a fresh duct constructed on a placeholder
address exposes requested and actual addresses separately. -/
theorem bind_exposes_both_addresses_witness :
    (RawDuctParent.init Address.placeholder).connSocket = none ∧
    (RawDuctParent.init Address.placeholder).listenerSocket = none ∧
    ((RawDuctParent.bind 3 (RawDuctParent.init Address.placeholder)).2.bind_address
        = (RawDuctParent.init Address.placeholder).bind_address ∧
      (RawDuctParent.bind 3 (RawDuctParent.init Address.placeholder)).2.listener_address
        = some (resolveAddress 3 (RawDuctParent.init Address.placeholder).bind_address) ∧
      resolveAddress 3 Address.placeholder = Address.concrete 3 ∧
      (∀ a, resolveAddress 3 (Address.concrete a) = Address.concrete a)) :=
  ⟨rfl, rfl,
    bind_exposes_both_addresses 3 (RawDuctParent.init Address.placeholder) rfl rfl⟩

/-- State of `RawDuctChild` (`base_duct.py`): the target address and the
`self.socket` reference. -/
structure RawDuctChild where
  connect_address : Address
  socket : Option Nat
deriving DecidableEq, Repr

/-- Embeds `RawDuctChild.__init__`. -/
def RawDuctChild.init (addr : Address) : RawDuctChild := ⟨addr, none⟩

/-- Embeds `RawDuctChild.connect`: assert not already connected; construct a socket
and connect it.  `listening` says whether a listener is currently bound at
the target address; when it is not, the transport reports connection
refused. -/
def RawDuctChild.connect (listening : Bool) (c : RawDuctChild) :
    Except DuctError Unit × RawDuctChild :=
  if c.socket.isSome then (.error .invalidState, c)
  else if listening then (.ok (), { c with socket := some 0 })
  else (.error .communicationFault, c)

/-- The externally visible steps `create_psuedo_anonymous_duct_pair`
performs, in order. -/
inductive PairEvent where
  | constructParent
  | bindParent
  | readListenerAddress
  | constructChild
  | connectChild
  | listenParent
deriving DecidableEq, Repr

/-- Embeds `create_psuedo_anonymous_duct_pair` (`message_duct.py`): construct the
parent duct on the provider-generated temporary address `tmpName`, bind it,
read back its actual listening address, construct the child duct targeting
that address, connect the child, have the parent accept via `listen`, and
return the pair.  The returned trace records the order in which the steps
ran. -/
def create_psuedo_anonymous_duct_pair (tmpName sys : Nat) :
    List PairEvent × RawDuctParent × RawDuctChild :=
  let parent0 := RawDuctParent.init (Address.concrete tmpName)
  let parent1 := (RawDuctParent.bind sys parent0).2
  let laddr := parent1.listener_address
  let child0 := RawDuctChild.init (laddr.getD parent0.bind_address)
  let listening := parent1.listenerSocket.isSome &&
    decide (laddr = some child0.connect_address)
  let child1 := (RawDuctChild.connect listening child0).2
  let ev := if child1.socket.isSome then ListenEvent.hasConn
    else ListenEvent.timedOut
  let parent2 := (RawDuctParent.listen sys ev parent1).2
  ([.constructParent, .bindParent, .readListenerAddress, .constructChild,
    .connectChild, .listenParent], parent2, child1)

/-- C9: the pair factory performs construct-parent → bind → read actual
address → construct-child targeting that actual address → connect child →
parent accept, in that order, and returns the pair with both ends holding a
connection socket; the child was constructed on the actual listening address
read back after bind completed. -/
theorem create_pair_ordered_and_connected (tmpName sys : Nat) :
    (create_psuedo_anonymous_duct_pair tmpName sys).1 =
      [PairEvent.constructParent, PairEvent.bindParent,
       PairEvent.readListenerAddress, PairEvent.constructChild,
       PairEvent.connectChild, PairEvent.listenParent] ∧
    (create_psuedo_anonymous_duct_pair tmpName sys).2.1.connSocket.isSome ∧
    (create_psuedo_anonymous_duct_pair tmpName sys).2.2.socket.isSome ∧
    (create_psuedo_anonymous_duct_pair tmpName sys).2.2.connect_address =
      Address.concrete tmpName := by
  simp [create_psuedo_anonymous_duct_pair, RawDuctParent.init,
    RawDuctParent.bind, RawDuctParent.listener_address, resolveAddress,
    RawDuctChild.init, RawDuctChild.connect, RawDuctParent.listen,
    destroySocket]

/-- One public operation of the server-side transport duct, as a transition
on duct states (the operation's auxiliary inputs — addresses assigned by the
system, readiness events, transport results — are existentially free). -/
inductive Step : RawDuctParent → RawDuctParent → Prop where
  | bind (sys : Nat) (st : RawDuctParent) :
      Step st (RawDuctParent.bind sys st).2
  | listen (sys : Nat) (ev : ListenEvent) (st : RawDuctParent) :
      Step st (RawDuctParent.listen sys ev st).2
  | send (sent : Nat) (st : RawDuctParent) :
      Step st (RawDuctParent.send sent st).2
  | recv (got : List Nat) (st : RawDuctParent) :
      Step st (RawDuctParent.recv got st).2
  | recv_into (got : Nat) (st : RawDuctParent) :
      Step st (RawDuctParent.recv_into got st).2
  | poll (ready : Bool) (st : RawDuctParent) :
      Step st (RawDuctParent.poll ready st).2
  | close (st : RawDuctParent) :
      Step st (RawDuctParent.close st).2

/-- Duct states reachable from a freshly constructed duct by any sequence of
public operations. -/
inductive Reachable : RawDuctParent → Prop where
  | init (addr : Address) : Reachable (RawDuctParent.init addr)
  | step {st st' : RawDuctParent} : Reachable st → Step st st' → Reachable st'

/-- The inductive state invariant: socket handles in use are below the
fresh-handle counter, a connection excludes a listener reference, and every
handle ever allocated other than the currently live ones has been destroyed. -/
def GoodState (st : RawDuctParent) : Prop :=
  (∀ sid ∈ st.destroyed, sid < st.nextId) ∧
  (∀ l, st.listenerSocket = some l → l < st.nextId) ∧
  (∀ c, st.connSocket = some c → c < st.nextId) ∧
  (∀ c, st.connSocket = some c → st.listenerSocket = none) ∧
  (∀ sid, sid < st.nextId → st.listenerSocket ≠ some sid →
    st.connSocket ≠ some sid → sid ∈ st.destroyed)

theorem goodState_init (addr : Address) : GoodState (RawDuctParent.init addr) := by
  refine ⟨?_, ?_, ?_, ?_, ?_⟩
  · intro sid hs
    exact absurd hs (List.not_mem_nil sid)
  · intro l hl
    exact Option.noConfusion hl
  · intro c hc
    exact Option.noConfusion hc
  · intro c hc
    exact Option.noConfusion hc
  · intro sid hlt
    exact absurd hlt (Nat.not_lt_zero sid)

theorem goodState_bind (sys : Nat) {st : RawDuctParent} (h : GoodState st) :
    GoodState (RawDuctParent.bind sys st).2 := by
  obtain ⟨ba, ls, cs, la, d, n⟩ := st
  obtain ⟨h1, h2, h3, h4, h5⟩ := h
  cases cs with
  | some c => exact ⟨h1, h2, h3, h4, h5⟩
  | none =>
    cases ls with
    | some l => exact ⟨h1, h2, h3, h4, h5⟩
    | none =>
      show GoodState ⟨ba, some n, none, some (resolveAddress sys ba), d, n + 1⟩
      refine ⟨fun sid hs => Nat.lt_succ_of_lt (h1 sid hs), ?_, ?_, ?_, ?_⟩
      · intro l hl
        cases hl
        exact Nat.lt_succ_self _
      · intro c hc
        exact Option.noConfusion hc
      · intro c hc
        exact Option.noConfusion hc
      · intro sid hlt hne hnc
        dsimp only at hlt hne hnc
        have hsn : sid ≠ n := fun he => hne (by rw [he])
        exact h5 sid (Nat.lt_of_le_of_ne (Nat.le_of_lt_succ hlt) hsn)
          (fun he => Option.noConfusion he) (fun he => Option.noConfusion he)

theorem goodState_listen_aux (sys : Nat) (ev : ListenEvent) (ba : Address)
    (la : Option Address) (d : List Nat) (n lid : Nat)
    (h : GoodState ⟨ba, some lid, none, la, d, n⟩) :
    GoodState (RawDuctParent.listen sys ev ⟨ba, some lid, none, la, d, n⟩).2 := by
  obtain ⟨h1, h2, h3, h4, h5⟩ := h
  by_cases hd : lid ∈ d
  · have he : (RawDuctParent.listen sys ev ⟨ba, some lid, none, la, d, n⟩).2
        = ⟨ba, some lid, none, la, d, n⟩ := by
      simp [RawDuctParent.listen, hd]
    rw [he]
    exact ⟨h1, h2, h3, h4, h5⟩
  · cases ev with
    | faulted =>
      have he : (RawDuctParent.listen sys ListenEvent.faulted
            ⟨ba, some lid, none, la, d, n⟩).2
          = ⟨ba, some lid, none, la, lid :: d, n⟩ := by
        simp [RawDuctParent.listen, destroySocket, hd]
      rw [he]
      refine ⟨?_, ?_, ?_, ?_, ?_⟩
      · intro sid hs
        rcases List.mem_cons.1 hs with rfl | hs
        · exact h2 sid rfl
        · exact h1 sid hs
      · intro l hl
        cases hl
        exact h2 _ rfl
      · intro c hc
        exact Option.noConfusion hc
      · intro c hc
        exact Option.noConfusion hc
      · intro sid hlt hne hnc
        exact List.mem_cons.2 (Or.inr (h5 sid hlt hne hnc))
    | hasConn =>
      have he : (RawDuctParent.listen sys ListenEvent.hasConn
            ⟨ba, some lid, none, la, d, n⟩).2
          = ⟨ba, none, some n, la, lid :: d, n + 1⟩ := by
        simp [RawDuctParent.listen, destroySocket, hd]
      rw [he]
      refine ⟨?_, ?_, ?_, ?_, ?_⟩
      · intro sid hs
        rcases List.mem_cons.1 hs with rfl | hs
        · exact Nat.lt_succ_of_lt (h2 sid rfl)
        · exact Nat.lt_succ_of_lt (h1 sid hs)
      · intro l hl
        exact Option.noConfusion hl
      · intro c hc
        cases hc
        exact Nat.lt_succ_self _
      · intro c _
        rfl
      · intro sid hlt hne hnc
        dsimp only at hlt hne hnc
        have hsn : sid ≠ n := fun he2 => hnc (by rw [he2])
        by_cases hsl : sid = lid
        · exact List.mem_cons.2 (Or.inl hsl)
        · refine List.mem_cons.2 (Or.inr
            (h5 sid (Nat.lt_of_le_of_ne (Nat.le_of_lt_succ hlt) hsn) ?_ ?_))
          · intro he2
            exact hsl (Option.some.inj he2).symm
          · intro he2
            exact Option.noConfusion he2
    | timedOut =>
      have he : (RawDuctParent.listen sys ListenEvent.timedOut
            ⟨ba, some lid, none, la, d, n⟩).2
          = ⟨ba, some lid, none, la, d, n⟩ := by
        simp [RawDuctParent.listen, hd]
      rw [he]
      exact ⟨h1, h2, h3, h4, h5⟩

theorem goodState_listen (sys : Nat) (ev : ListenEvent) {st : RawDuctParent}
    (h : GoodState st) : GoodState (RawDuctParent.listen sys ev st).2 := by
  obtain ⟨ba, ls, cs, la, d, n⟩ := st
  cases cs with
  | some c =>
    obtain ⟨h1, h2, h3, h4, h5⟩ := h
    exact ⟨h1, h2, h3, h4, h5⟩
  | none =>
    cases ls with
    | some lid => exact goodState_listen_aux sys ev ba la d n lid h
    | none =>
      exact goodState_listen_aux sys ev ba
        (some (resolveAddress sys ba)) d (n + 1) n (goodState_bind sys h)

theorem goodState_close {st : RawDuctParent} (h : GoodState st) :
    GoodState (RawDuctParent.close st).2 := by
  obtain ⟨ba, ls, cs, la, d, n⟩ := st
  obtain ⟨h1, h2, h3, h4, h5⟩ := h
  cases ls with
  | some lid =>
    cases cs with
    | some cid => exact absurd (h4 cid rfl) (fun he => Option.noConfusion he)
    | none =>
      by_cases hd : lid ∈ d
      · have he : (RawDuctParent.close ⟨ba, some lid, none, la, d, n⟩).2
            = ⟨ba, some lid, none, la, d, n⟩ := by
          simp [RawDuctParent.close, destroySocket, hd]
        rw [he]
        exact ⟨h1, h2, h3, h4, h5⟩
      · have he : (RawDuctParent.close ⟨ba, some lid, none, la, d, n⟩).2
            = ⟨ba, none, none, la, lid :: d, n⟩ := by
          simp [RawDuctParent.close, RawDuctParent.closeConn, destroySocket, hd]
        rw [he]
        refine ⟨?_, ?_, ?_, ?_, ?_⟩
        · intro sid hs
          rcases List.mem_cons.1 hs with rfl | hs
          · exact h2 sid rfl
          · exact h1 sid hs
        · intro l hl
          exact Option.noConfusion hl
        · intro c hc
          exact Option.noConfusion hc
        · intro c hc
          exact Option.noConfusion hc
        · intro sid hlt hne hnc
          by_cases hsl : sid = lid
          · exact List.mem_cons.2 (Or.inl hsl)
          · refine List.mem_cons.2 (Or.inr (h5 sid hlt ?_ ?_))
            · intro he2
              exact hsl (Option.some.inj he2).symm
            · intro he2
              exact Option.noConfusion he2
  | none =>
    cases cs with
    | none => exact ⟨h1, h2, h3, h4, h5⟩
    | some cid =>
      by_cases hd : cid ∈ d
      · have he : (RawDuctParent.close ⟨ba, none, some cid, la, d, n⟩).2
            = ⟨ba, none, some cid, la, d, n⟩ := by
          simp [RawDuctParent.close, RawDuctParent.closeConn, destroySocket, hd]
        rw [he]
        exact ⟨h1, h2, h3, h4, h5⟩
      · have he : (RawDuctParent.close ⟨ba, none, some cid, la, d, n⟩).2
            = ⟨ba, none, none, la, cid :: d, n⟩ := by
          simp [RawDuctParent.close, RawDuctParent.closeConn, destroySocket, hd]
        rw [he]
        refine ⟨?_, ?_, ?_, ?_, ?_⟩
        · intro sid hs
          rcases List.mem_cons.1 hs with rfl | hs
          · exact h3 sid rfl
          · exact h1 sid hs
        · intro l hl
          exact Option.noConfusion hl
        · intro c hc
          exact Option.noConfusion hc
        · intro c hc
          exact Option.noConfusion hc
        · intro sid hlt hne hnc
          by_cases hsc : sid = cid
          · exact List.mem_cons.2 (Or.inl hsc)
          · refine List.mem_cons.2 (Or.inr (h5 sid hlt ?_ ?_))
            · intro he2
              exact Option.noConfusion he2
            · intro he2
              exact hsc (Option.some.inj he2).symm

theorem goodState_step {st st' : RawDuctParent} (h : GoodState st)
    (hs : Step st st') : GoodState st' := by
  cases hs with
  | bind sys st => exact goodState_bind sys h
  | listen sys ev st => exact goodState_listen sys ev h
  | send sent st =>
    obtain ⟨ba, ls, cs, la, d, n⟩ := st
    cases cs <;> exact h
  | recv got st =>
    obtain ⟨ba, ls, cs, la, d, n⟩ := st
    cases cs <;> exact h
  | recv_into got st =>
    obtain ⟨ba, ls, cs, la, d, n⟩ := st
    cases cs <;> exact h
  | poll ready st =>
    obtain ⟨ba, ls, cs, la, d, n⟩ := st
    cases cs <;> exact h
  | close st => exact goodState_close h

theorem goodState_reachable {st : RawDuctParent} (h : Reachable st) :
    GoodState st := by
  induction h with
  | init addr => exact goodState_init addr
  | step _ hs ih => exact goodState_step ih hs

/-- C7: in every reachable state of a server-side transport duct — every
operation preserving this — whenever a connection socket is held, the
listener socket reference has been cleared and every other socket handle the
duct ever allocated (in particular the listener it accepted from) has been
destroyed. -/
theorem connection_excludes_listener {st : RawDuctParent} (h : Reachable st) :
    ∀ c, st.connSocket = some c →
      st.listenerSocket = none ∧
      ∀ sid, sid < st.nextId → sid ≠ c → sid ∈ st.destroyed := by
  intro c hc
  obtain ⟨-, -, -, h4, h5⟩ := goodState_reachable h
  refine ⟨h4 c hc, fun sid hlt hne => ?_⟩
  refine h5 sid hlt ?_ ?_
  · rw [h4 c hc]
    simp
  · intro he
    rw [hc] at he
    exact hne (Option.some.inj he).symm

/-- Witness for C7 at the concrete reachable connected duct `conState`:
the connection handle is 1, the listener reference is cleared, and the
accepted-from listener handle 0 is destroyed. -/
theorem connection_excludes_listener_witness :
    conState.connSocket = some 1 ∧
    conState.listenerSocket = none ∧
    (0 ∈ conState.destroyed ∧ 0 < conState.nextId) :=
  have hreach : Reachable conState :=
    Reachable.step
      (Reachable.step (Reachable.init (Address.concrete 9))
        (Step.bind 5 (RawDuctParent.init (Address.concrete 9))))
      (Step.listen 5 ListenEvent.hasConn
        (RawDuctParent.bind 5 (RawDuctParent.init (Address.concrete 9))).2)
  ⟨rfl, (connection_excludes_listener hreach 1 rfl).1,
    ⟨(connection_excludes_listener hreach 1 rfl).2 0 (by decide) (by decide),
      by decide⟩⟩

/-- Lock operations performed on the duct's configured lock, in order. -/
inductive LockEv where
  | acquire
  | release
deriving DecidableEq, Repr

/-- The ways a framing-duct `send`/`recv` body can terminate exceptionally:
the serializer raises, `struct.pack('!cL', …)` rejects an over-long payload,
an underlying transport write or read raises, the peer closed
(`RemoteDuctClosed`), the sentinel mismatches (`MessageProtocolException`,
with expected and actual bytes), or the deserializer raises. -/
inductive DuctFailure where
  | serializeError
  | packError
  | writeError
  | readError
  | remoteClosed
  | protocolViolation (expected actual : Nat)
  | deserializeError
deriving DecidableEq, Repr

/-- The `send` write loop where an underlying write may also raise: a `none`
schedule entry models `socket_duct.send` raising.  Returns `none` for a
schedule no transport could produce, otherwise the failure the loop raised
(or `none` inside for clean completion). -/
def sendLoopExn : List Nat → List (Option Nat) → Option (Option DuctFailure)
  | [], _ => some none
  | _ :: _, [] => none
  | _ :: _, none :: _ => some (some .writeError)
  | b :: msg, some k :: ws =>
    if 1 ≤ k ∧ k ≤ (b :: msg).length then sendLoopExn ((b :: msg).drop k) ws
    else none

/-- Embeds `MessageDuctParent.send` with its lock handling: `acquire` runs inside
the `try:`, the body serializes (`ser = none` models the serializer raising),
packs the frame and writes it out, and the `finally:` releases the lock on
every exit path.  Returns the failure the call propagates (`none` for
success) and the lock operations performed, in order. -/
def sendLocked (hasLock : Bool) (ser : Option (List Nat))
    (ws : List (Option Nat)) : Option (Option DuctFailure × List LockEv) :=
  let acq : List LockEv := if hasLock then [.acquire] else []
  let rel : List LockEv := if hasLock then [.release] else []
  match ser with
  | none => some (some .serializeError, acq ++ rel)
  | some p =>
    if p.length < 2 ^ 32 then
      match sendLoopExn (frame p) ws with
      | none => none
      | some out => some (out, acq ++ rel)
    else some (some .packError, acq ++ rel)

/-- Outcome of a `recv` accumulation loop when the underlying `recv_into`
may also raise (a `none` schedule entry). -/
inductive RecvStepExn where
  | got (bytes rest : List Nat) (sched : List (Option Nat))
  | closed
  | raised
deriving DecidableEq, Repr

/-- The `recv_into` accumulation loop with raise-capable reads. -/
def recvIntoLoopExn : Nat → List Nat → List (Option Nat) → Option RecvStepExn
  | 0, s, sc => some (.got [] s sc)
  | _ + 1, [], _ => some .closed
  | _ + 1, _ :: _, [] => none
  | _ + 1, _ :: _, none :: _ => some .raised
  | need + 1, b :: s, some k :: sc =>
    if 1 ≤ k ∧ k ≤ min (need + 1) (b :: s).length then
      match recvIntoLoopExn (need + 1 - k) ((b :: s).drop k) sc with
      | some (.got bytes rest sc2) =>
        some (.got ((b :: s).take k ++ bytes) rest sc2)
      | some r => some r
      | none => none
    else none

/-- Embeds `MessageDuctParent.recv` with its lock handling: `acquire` inside the
`try:`, then the sentinel read (`firstRaises` models `socket_duct.recv`
raising), the length and payload loops, and deserialization (`desOk`
says whether `self.deserialize` succeeds on the received bytes); the
`finally:` releases the lock on every exit path. -/
def recvLocked (hasLock : Bool) (desOk : List Nat → Bool) (s : List Nat)
    (firstRaises : Bool) (sc : List (Option Nat)) :
    Option (Option DuctFailure × List LockEv) :=
  let acq : List LockEv := if hasLock then [.acquire] else []
  let rel : List LockEv := if hasLock then [.release] else []
  if firstRaises then some (some .readError, acq ++ rel)
  else
    match s with
    | [] => some (some .remoteClosed, acq ++ rel)
    | b :: rest =>
      if b = MAGIC_BYTE then
        match recvIntoLoopExn 4 rest sc with
        | none => none
        | some .raised => some (some .readError, acq ++ rel)
        | some .closed => some (some .remoteClosed, acq ++ rel)
        | some (.got lenBytes rest2 sc2) =>
          match recvIntoLoopExn (be32ToNat lenBytes) rest2 sc2 with
          | none => none
          | some .raised => some (some .readError, acq ++ rel)
          | some .closed => some (some .remoteClosed, acq ++ rel)
          | some (.got payload _ _) =>
            if desOk payload then some (none, acq ++ rel)
            else some (some .deserializeError, acq ++ rel)
      else some (some (.protocolViolation MAGIC_BYTE b), acq ++ rel)

/-- C10: on a framing duct constructed with a lock, every completed `send`
and every completed `recv` call performs exactly one acquire followed by
exactly one release — on every exit path, including serializer failure,
over-long payloads, raising transport writes/reads, a sentinel mismatch, a
peer closing mid-frame, and deserializer failure — so a failed call never
leaves the lock held. -/
theorem lock_released_on_every_path (ser : Option (List Nat))
    (ws : List (Option Nat)) (desOk : List Nat → Bool) (s : List Nat)
    (firstRaises : Bool) (sc : List (Option Nat)) :
    (∀ out evs, sendLocked true ser ws = some (out, evs) →
      evs = [LockEv.acquire, LockEv.release]) ∧
    (∀ out evs, recvLocked true desOk s firstRaises sc = some (out, evs) →
      evs = [LockEv.acquire, LockEv.release]) := by
  constructor
  · intro out evs h
    cases ser with
    | none =>
      simp only [sendLocked, if_true, Option.some.injEq, Prod.mk.injEq] at h
      simp [← h.2]
    | some p =>
      by_cases hp : p.length < 2 ^ 32
      · cases hw : sendLoopExn (frame p) ws with
        | none =>
          simp [sendLocked, hp, hw] at h
          exact absurd h.1 (by omega)
        | some o =>
          simp only [sendLocked, hp, if_true, hw, Option.some.injEq,
            Prod.mk.injEq] at h
          simp [← h.2]
      · simp only [sendLocked, hp, if_true, if_false, Option.some.injEq,
          Prod.mk.injEq] at h
        simp [← h.2]
  · intro out evs h
    cases firstRaises with
    | true =>
      simp only [recvLocked, if_true, Option.some.injEq, Prod.mk.injEq] at h
      simp [← h.2]
    | false =>
      cases s with
      | nil =>
        simp only [recvLocked, Bool.false_eq_true, if_false, if_true,
          Option.some.injEq, Prod.mk.injEq] at h
        simp [← h.2]
      | cons b rest =>
        by_cases hb : b = MAGIC_BYTE
        · subst hb
          cases h4 : recvIntoLoopExn 4 rest sc with
          | none =>
            simp [recvLocked, h4] at h
          | some st1 =>
            cases st1 with
            | raised =>
              simp only [recvLocked, Bool.false_eq_true, if_false, if_pos rfl,
                if_true, h4, Option.some.injEq, Prod.mk.injEq] at h
              simp [← h.2]
            | closed =>
              simp only [recvLocked, Bool.false_eq_true, if_false, if_pos rfl,
                if_true, h4, Option.some.injEq, Prod.mk.injEq] at h
              simp [← h.2]
            | got lenBytes rest2 sc2 =>
              cases h5 : recvIntoLoopExn (be32ToNat lenBytes) rest2 sc2 with
              | none =>
                simp [recvLocked, h4, h5] at h
              | some st2 =>
                cases st2 with
                | raised =>
                  simp only [recvLocked, Bool.false_eq_true, if_false,
                    if_pos rfl, if_true, h4, h5, Option.some.injEq,
                    Prod.mk.injEq] at h
                  simp [← h.2]
                | closed =>
                  simp only [recvLocked, Bool.false_eq_true, if_false,
                    if_pos rfl, if_true, h4, h5, Option.some.injEq,
                    Prod.mk.injEq] at h
                  simp [← h.2]
                | got payload rest3 sc3 =>
                  by_cases hdes : desOk payload
                  · simp only [recvLocked, Bool.false_eq_true, if_false,
                      if_pos rfl, if_true, h4, h5, hdes, Option.some.injEq,
                      Prod.mk.injEq] at h
                    simp [← h.2]
                  · simp only [recvLocked, Bool.false_eq_true, if_false,
                      if_pos rfl, if_true, h4, h5, hdes, Option.some.injEq,
                      Prod.mk.injEq] at h
                    simp [← h.2]
        · simp only [recvLocked, Bool.false_eq_true, if_false, if_neg hb,
            if_true, Option.some.injEq, Prod.mk.injEq] at h
          simp [← h.2]


/-- Witness for C10: a concrete successful locked `send` of payload `[3]`
and a locked `recv` that hits a closed peer both acquire and release the
lock exactly once. -/
theorem lock_released_on_every_path_witness :
    sendLocked true (some [3]) [some 6] =
      some (none, [LockEv.acquire, LockEv.release]) ∧
    recvLocked true (fun _ => true) [] false [] =
      some (some DuctFailure.remoteClosed, [LockEv.acquire, LockEv.release]) ∧
    [LockEv.acquire, LockEv.release] = [LockEv.acquire, LockEv.release] :=
  ⟨by decide, by decide,
    (lock_released_on_every_path (some [3]) [some 6] (fun _ => true) [] false
      []).1 none [LockEv.acquire, LockEv.release] (by decide)⟩

end Ductworks
